import Mathlib

/-!
Verification of the ristretto JVM implementation's natural-language
specification against its source.

The development shallowly embeds the parts of the code the claims are
about:

* the instruction codec of
  `ristretto_classfile/src/attributes/instruction_utils.rs`
  (`to_bytes` / `from_bytes`, which translate between instruction-index
  branch targets in memory and byte offsets on disk);
* the class loader delegation of
  `ristretto_classloader/src/class_loader.rs` (`ClassLoader::load_class`);
* the `ldc` / `ldc2_w` constant loading of
  `ristretto_vm/src/instruction/ldc.rs`;
* the non-volatile `Unsafe.put*` natives of
  `ristretto_vm/src/native_methods/jdk/internal/misc/unsafe.rs`;
* the VM bootstrap logic of `ristretto_vm/src/vm.rs`
  (`initialize`, class-file version computation, thread-id allocation).

Machine integers are embedded as `Nat` / `Int` with explicit range
checks and two's-complement conversions where the Rust code converts
between widths.  Fallible Rust code (`Result`) becomes `Except`;
a panicking `.expect(...)` on a map lookup becomes the dedicated
`CodecError.expectPanic` error value.
-/

/-- Decidable equality of `Except` results, used to settle concrete
codec computations. -/
instance {ε α : Type} [DecidableEq ε] [DecidableEq α] : DecidableEq (Except ε α) :=
  fun a b =>
    match a, b with
    | .ok x, .ok y => if h : x = y then .isTrue (by rw [h]) else .isFalse (by simp [h])
    | .error x, .error y =>
      if h : x = y then .isTrue (by rw [h]) else .isFalse (by simp [h])
    | .ok _, .error _ => .isFalse (by simp)
    | .error _, .ok _ => .isFalse (by simp)

namespace Ristretto

/-- Host-side failure modes of the instruction codec.  `expectPanic`
models a Rust panic raised by `.expect(...)` on a failed map lookup;
`range` models a failed `try_from` integer conversion; `loopLimit` is
the fuel guard of the decode loop (unreachable: every instruction
consumes at least one byte, and the loop is given one unit of fuel per
input byte). -/
inductive CodecError where
  | truncated
  | malformed
  | range
  | expectPanic
  | loopLimit
deriving DecidableEq, Repr

/-! ## Big-endian numeric primitives

Modelled from the spec: the binary codec reads and writes
`u8/i8/u16/i16/u32/i32` in big-endian, two's complement for the signed
widths. -/

/-- Big-endian bytes of a 16-bit unsigned value. -/
def u16be (n : Nat) : List Nat := [n / 256 % 256, n % 256]

/-- Big-endian bytes of a 32-bit unsigned value. -/
def u32be (n : Nat) : List Nat :=
  [n / 16777216 % 256, n / 65536 % 256, n / 256 % 256, n % 256]

/-- Two's-complement big-endian bytes of a 16-bit signed value. -/
def i16be (v : Int) : List Nat := u16be (v.emod 65536).toNat

/-- Two's-complement big-endian bytes of a 32-bit signed value. -/
def i32be (v : Int) : List Nat := u32be (v.emod 4294967296).toNat

/-- Decode a 16-bit unsigned big-endian value as a signed integer. -/
def decI16 (n : Nat) : Int := if n < 32768 then (n : Int) else (n : Int) - 65536

/-- Decode a 32-bit unsigned big-endian value as a signed integer. -/
def decI32 (n : Nat) : Int :=
  if n < 2147483648 then (n : Int) else (n : Int) - 4294967296

/-- Decode an 8-bit unsigned value as a signed integer. -/
def decI8 (n : Nat) : Int := if n < 128 then (n : Int) else (n : Int) - 256

/-- Read one byte; `Truncated` if the stream is exhausted. -/
def readU8 (bytes : List Nat) (pos : Nat) : Except CodecError Nat :=
  match bytes.get? pos with
  | some b => .ok b
  | none => .error .truncated

/-- Read a big-endian `u16`. -/
def readU16 (bytes : List Nat) (pos : Nat) : Except CodecError Nat := do
  let a ← readU8 bytes pos
  let b ← readU8 bytes (pos + 1)
  .ok (a * 256 + b)

/-- Read a big-endian `u32`. -/
def readU32 (bytes : List Nat) (pos : Nat) : Except CodecError Nat := do
  let a ← readU16 bytes pos
  let b ← readU16 bytes (pos + 2)
  .ok (a * 65536 + b)

/-- Read a big-endian `i32`. -/
def readI32 (bytes : List Nat) (pos : Nat) : Except CodecError Int := do
  let n ← readU32 bytes pos
  .ok (decI32 n)

/-- Read `count` consecutive big-endian `i32` values. -/
def readI32s (bytes : List Nat) (pos : Nat) : Nat → Except CodecError (List Int)
  | 0 => .ok []
  | count + 1 => do
    let v ← readI32 bytes pos
    let rest ← readI32s bytes (pos + 4) count
    .ok (v :: rest)

/-! ## The instruction model

The `Instruction` enum of `ristretto_classfile` is embedded with one
constructor per payload shape.  The twenty simple branch opcodes
(`if*`, `goto`, `jsr`, `ifnull`, `ifnonnull` with a 16-bit offset;
`goto_w`, `jsr_w` with a 32-bit offset) all carry a `u16` target field
and are handled by a single or-pattern arm in `instruction_utils.rs`,
so they are embedded as a `branch` (resp. `branch_w`) constructor
indexed by the opcode kind.  A handful of operand-free opcodes used by
the repository's tests are included, plus `bipush` as a representative
two-byte instruction. -/

/-- Operand-free opcodes used in the repository's instruction tests. -/
inductive SimpleOp where
  | nop
  | iconst_0
  | iconst_1
  | iload_0
  | istore_0
  | iadd
  | ireturn
deriving DecidableEq, Repr

/-- The eighteen narrow branch opcodes (16-bit signed byte offset on
disk, `u16` target field in memory). -/
inductive BranchKind where
  | ifeq
  | ifne
  | iflt
  | ifge
  | ifgt
  | ifle
  | if_icmpeq
  | if_icmpne
  | if_icmplt
  | if_icmpge
  | if_icmpgt
  | if_icmple
  | if_acmpeq
  | if_acmpne
  | goto
  | jsr
  | ifnull
  | ifnonnull
deriving DecidableEq, Repr

/-- The two wide branch opcodes (32-bit signed byte offset on disk). -/
inductive WideKind where
  | goto_w
  | jsr_w
deriving DecidableEq, Repr

/-- The instruction enum, restricted to the shapes the branch-target
translation distinguishes. -/
inductive Instruction where
  | simple (op : SimpleOp)
  | bipush (value : Int)
  | branch (kind : BranchKind) (offset : Nat)
  | branch_w (kind : WideKind) (offset : Nat)
  | tableswitch (default : Int) (low : Int) (high : Int) (offsets : List Int)
  | lookupswitch (default : Int) (pairs : List (Int × Int))
deriving DecidableEq, Repr

/-- Opcode byte of an operand-free instruction. -/
def SimpleOp.code : SimpleOp → Nat
  | .nop => 0
  | .iconst_0 => 3
  | .iconst_1 => 4
  | .iload_0 => 26
  | .istore_0 => 59
  | .iadd => 96
  | .ireturn => 172

/-- Opcode byte of a narrow branch instruction. -/
def BranchKind.code : BranchKind → Nat
  | .ifeq => 153
  | .ifne => 154
  | .iflt => 155
  | .ifge => 156
  | .ifgt => 157
  | .ifle => 158
  | .if_icmpeq => 159
  | .if_icmpne => 160
  | .if_icmplt => 161
  | .if_icmpge => 162
  | .if_icmpgt => 163
  | .if_icmple => 164
  | .if_acmpeq => 165
  | .if_acmpne => 166
  | .goto => 167
  | .jsr => 168
  | .ifnull => 198
  | .ifnonnull => 199

/-- Opcode byte of a wide branch instruction. -/
def WideKind.code : WideKind → Nat
  | .goto_w => 200
  | .jsr_w => 201

/-- Inverse of `SimpleOp.code`. -/
def simpleOpOfCode (c : Nat) : Option SimpleOp :=
  match c with
  | 0 => some .nop
  | 3 => some .iconst_0
  | 4 => some .iconst_1
  | 26 => some .iload_0
  | 59 => some .istore_0
  | 96 => some .iadd
  | 172 => some .ireturn
  | _ => none

/-- Inverse of `BranchKind.code`. -/
def branchKindOfCode (c : Nat) : Option BranchKind :=
  match c with
  | 153 => some .ifeq
  | 154 => some .ifne
  | 155 => some .iflt
  | 156 => some .ifge
  | 157 => some .ifgt
  | 158 => some .ifle
  | 159 => some .if_icmpeq
  | 160 => some .if_icmpne
  | 161 => some .if_icmplt
  | 162 => some .if_icmpge
  | 163 => some .if_icmpgt
  | 164 => some .if_icmple
  | 165 => some .if_acmpeq
  | 166 => some .if_acmpne
  | 167 => some .goto
  | 168 => some .jsr
  | 198 => some .ifnull
  | 199 => some .ifnonnull
  | _ => none

/-- Inverse of `WideKind.code`. -/
def wideKindOfCode (c : Nat) : Option WideKind :=
  match c with
  | 200 => some .goto_w
  | 201 => some .jsr_w
  | _ => none

/-- Alignment padding before a switch instruction's integer tables:
the opcode sits at byte `pos`, and 0 to 3 zero bytes follow so the
tables begin 4-byte aligned from the start of the bytecode array. -/
def padLen (pos : Nat) : Nat := (4 - (pos + 1) % 4) % 4

/-- Modelled from the spec: `Instruction::to_bytes` of
`ristretto_classfile` (the per-instruction encoder is not under
`src/`; only its caller `instruction_utils.rs` and that file's tests
are).  A narrow branch writes its opcode followed by the 16-bit signed
difference between its `u16` target field and the opcode's own byte
position `pos` (witnessed by `test_ifeq`: `[Nop, Ifeq(0)]` encodes to
`[0, 153, 255, 255]`); the conversion fails like `i16::try_from` when
the difference does not fit.  Wide branches write the difference as 32
bits.  Switch instructions write 0 to 3 alignment padding bytes and
then their `i32` payload words unchanged (witnessed by
`test_tableswitch` / `test_lookupswitch`). -/
def instrToBytes (pos : Nat) : Instruction → Except CodecError (List Nat)
  | .simple op => .ok [op.code]
  | .bipush v => .ok [16, ((v.emod 256).toNat)]
  | .branch kind offset =>
    let rel : Int := (offset : Int) - (pos : Int)
    if -32768 ≤ rel ∧ rel < 32768 then
      .ok ([kind.code] ++ i16be rel)
    else
      .error .range
  | .branch_w kind offset =>
    .ok ([kind.code] ++ i32be ((offset : Int) - (pos : Int)))
  | .tableswitch default low high offsets =>
    .ok ([170] ++ List.replicate (padLen pos) 0 ++ i32be default ++ i32be low
      ++ i32be high ++ (offsets.map i32be).flatten)
  | .lookupswitch default pairs =>
    .ok ([171] ++ List.replicate (padLen pos) 0 ++ i32be default
      ++ i32be (pairs.length : Int)
      ++ (pairs.map (fun p => i32be p.1 ++ i32be p.2)).flatten)

/-- Modelled from the spec: `Instruction::from_bytes` of
`ristretto_classfile` (not under `src/`).  Returns the decoded
instruction and the position just past it.  A branch reads its signed
relative byte offset and stores the absolute byte position
`pos + rel` in its `u16` target field (failing like `u16::try_from`
outside `0..65536`); a switch skips the alignment padding and reads
its `i32` payload words unchanged. -/
def instrFromBytes (bytes : List Nat) (pos : Nat) :
    Except CodecError (Instruction × Nat) := do
  let opcode ← readU8 bytes pos
  match simpleOpOfCode opcode with
  | some op => .ok (.simple op, pos + 1)
  | none =>
  match branchKindOfCode opcode with
  | some kind => do
    let raw ← readU16 bytes (pos + 1)
    let target : Int := (pos : Int) + decI16 raw
    if 0 ≤ target ∧ target < 65536 then
      .ok (.branch kind target.toNat, pos + 3)
    else
      .error .range
  | none =>
  match wideKindOfCode opcode with
  | some kind => do
    let rel ← readI32 bytes (pos + 1)
    let target : Int := (pos : Int) + rel
    if 0 ≤ target ∧ target < 65536 then
      .ok (.branch_w kind target.toNat, pos + 5)
    else
      .error .range
  | none =>
  if opcode = 16 then do
    let b ← readU8 bytes (pos + 1)
    .ok (.bipush (decI8 b), pos + 2)
  else if opcode = 170 then do
    let pad := padLen pos
    let base := pos + 1 + pad
    let default ← readI32 bytes base
    let low ← readI32 bytes (base + 4)
    let high ← readI32 bytes (base + 8)
    let count := (high - low + 1).toNat
    let offsets ← readI32s bytes (base + 12) count
    .ok (.tableswitch default low high offsets, base + 12 + 4 * count)
  else if opcode = 171 then do
    let pad := padLen pos
    let base := pos + 1 + pad
    let default ← readI32 bytes base
    let npairs ← readI32 bytes (base + 4)
    let count := npairs.toNat
    let raw ← readI32s bytes (base + 8) (2 * count)
    let pairs := (List.range count).map
      (fun i => (raw.getD (2 * i) 0, raw.getD (2 * i + 1) 0))
    .ok (.lookupswitch default pairs, base + 8 + 8 * count)
  else
    .error .malformed

/-! ## `instruction_utils::to_bytes`

Translated from `ristretto_classfile/src/attributes/instruction_utils.rs`
lines 11-98.  The first pass writes every instruction with its
untranslated target fields to learn each instruction's byte position
(`instruction_to_byte_map`, embedded as the list `positions` whose
`i`-th entry is the byte position of instruction `i`).  The second
pass rewrites the target fields and re-serializes:

* a simple branch's field (an instruction index) is replaced by that
  instruction's byte position, `positions.get? field`, panicking
  (`expectPanic`) when the lookup fails;
* a switch's `default` and case offsets (instruction-index deltas) are
  replaced by `positions[index + delta] - index` — the target's byte
  position minus the switch's **instruction index** (the
  `- u16::try_from(index)?` of lines 59, 67, 80 and 88). -/

/-- Effectful map over a list (the embedding of the Rust `for` loops
that translate each switch target in turn, stopping at the first
failure). -/
def mapExcept {α β ε : Type} (f : α → Except ε β) : List α → Except ε (List β)
  | [] => .ok []
  | a :: rest => do
    let b ← f a
    let rest' ← mapExcept f rest
    .ok (b :: rest')

/-- First pass of `to_bytes`: the byte position of each instruction,
with the `u16::try_from` checks on the byte position and the
instruction index. -/
def computePositions (index pos : Nat) : List Instruction → Except CodecError (List Nat)
  | [] => .ok []
  | i :: rest => do
    if pos < 65536 ∧ index < 65536 then
      let bs ← instrToBytes pos i
      let more ← computePositions (index + 1) (pos + bs.length) rest
      .ok (pos :: more)
    else
      .error .range

/-- Second-pass translation of one switch target for `to_bytes`:
`delta` is an instruction-index delta; the result is the target's byte
position minus the switch's instruction index (so a byte position only
when `index` equals the switch's byte position). -/
def encodeSwitchTarget (positions : List Nat) (index : Nat) (delta : Int) :
    Except CodecError Int := do
  if 0 ≤ delta then
    let targetIndex := index + delta.toNat
    if targetIndex < 65536 then
      match positions.get? targetIndex with
      | some b => .ok ((b : Int) - (index : Int))
      | none => .error .expectPanic
    else
      .error .range
  else
    .error .range

/-- Second pass of `to_bytes`, field translation for one instruction
(the `match instruction` of lines 24-93). -/
def retargetEncode (positions : List Nat) (index : Nat) :
    Instruction → Except CodecError Instruction
  | .branch kind offset =>
    match positions.get? offset with
    | some b => .ok (.branch kind b)
    | none => .error .expectPanic
  | .branch_w kind offset =>
    match positions.get? offset with
    | some b => .ok (.branch_w kind b)
    | none => .error .expectPanic
  | .tableswitch default low high offsets => do
    let default' ← encodeSwitchTarget positions index default
    let offsets' ← mapExcept (encodeSwitchTarget positions index) offsets
    .ok (.tableswitch default' low high offsets')
  | .lookupswitch default pairs => do
    let default' ← encodeSwitchTarget positions index default
    let pairs' ← mapExcept (fun q => do
      let o ← encodeSwitchTarget positions index q.2
      Except.ok (q.1, o)) pairs
    .ok (.lookupswitch default' pairs')
  | i => .ok i

/-- Second pass of `to_bytes`: translate and re-serialize every
instruction, accumulating the output cursor position. -/
def encodeLoop (positions : List Nat) (index pos : Nat) :
    List Instruction → Except CodecError (List Nat)
  | [] => .ok []
  | i :: rest => do
    let i' ← retargetEncode positions index i
    let bs ← instrToBytes pos i'
    let more ← encodeLoop positions (index + 1) (pos + bs.length) rest
    .ok (bs ++ more)

/-- Embedding of `instruction_utils::to_bytes` (lines 11-98). -/
def toBytes (instructions : List Instruction) : Except CodecError (List Nat) := do
  let positions ← computePositions 0 0 instructions
  encodeLoop positions 0 0 instructions

/-! ## `instruction_utils::from_bytes`

Translated from `instruction_utils.rs` lines 104-196.  The scan loop
records `byte_pos → instruction_index` (embedded as `positions`, with
lookup `byteToInstruction`) and decodes the raw instruction stream;
the second pass maps each branch's absolute byte target back to an
instruction index (no subtraction, lines 139-141), and each switch
target to `byte_to_instruction(switch_byte_pos + offset) - index`
(lines 148-157). -/

/-- Lookup in `byte_to_instruction_map`: the index of the instruction
whose byte position is `b`, if any. -/
def byteToInstruction (positions : List Nat) (b : Nat) : Option Nat :=
  positions.findIdx? (· = b)

/-- Scan loop of `from_bytes`: decode the raw instruction stream,
recording each instruction's byte position.  `fuel` bounds the
recursion; `fromBytes` supplies one unit per input byte, which is
sufficient because every instruction consumes at least one byte. -/
def decodeLoop (bytes : List Nat) : Nat → Nat → Nat →
    Except CodecError (List (Nat × Instruction))
  | 0, pos, _ =>
    if pos < bytes.length then .error .loopLimit else .ok []
  | fuel + 1, pos, index =>
    if pos < bytes.length then do
      if pos < 65536 ∧ index < 65536 then
        let (i, next) ← instrFromBytes bytes pos
        let rest ← decodeLoop bytes fuel next (index + 1)
        .ok ((pos, i) :: rest)
      else
        .error .range
    else
      .ok []

/-- Second-pass translation of one switch target for `from_bytes`:
`offset` is a byte delta relative to the switch's byte position `pos`;
the result is the target's instruction index minus the switch's
instruction index.  (The Rust subtraction is on `u16` and would panic
on underflow; the target's instruction index never precedes the
switch's, so the `Int` subtraction agrees.) -/
def decodeSwitchTarget (positions : List Nat) (index pos : Nat) (offset : Int) :
    Except CodecError Int := do
  if 0 ≤ offset then
    let byteOffset := pos + offset.toNat
    if byteOffset < 65536 then
      match byteToInstruction positions byteOffset with
      | some t => .ok ((t : Int) - (index : Int))
      | none => .error .expectPanic
    else
      .error .range
  else
    .error .range

/-- Second pass of `from_bytes`, field translation for one instruction
(the `match instruction` of lines 118-193). -/
def retargetDecode (positions : List Nat) (index : Nat) :
    Instruction → Except CodecError Instruction
  | .branch kind offset =>
    match byteToInstruction positions offset with
    | some t => .ok (.branch kind t)
    | none => .error .expectPanic
  | .branch_w kind offset =>
    match byteToInstruction positions offset with
    | some t => .ok (.branch_w kind t)
    | none => .error .expectPanic
  | .tableswitch default low high offsets => do
    match positions.get? index with
    | some pos => do
      let default' ← decodeSwitchTarget positions index pos default
      let offsets' ← mapExcept (decodeSwitchTarget positions index pos) offsets
      .ok (.tableswitch default' low high offsets')
    | none => .error .expectPanic
  | .lookupswitch default pairs => do
    match positions.get? index with
    | some pos => do
      let default' ← decodeSwitchTarget positions index pos default
      let pairs' ← mapExcept (fun q => do
        let o ← decodeSwitchTarget positions index pos q.2
        Except.ok (q.1, o)) pairs
      .ok (.lookupswitch default' pairs')
    | none => .error .expectPanic
  | i => .ok i

/-- Second pass of `from_bytes` over the whole instruction list. -/
def retargetAll (positions : List Nat) : Nat → List Instruction →
    Except CodecError (List Instruction)
  | _, [] => .ok []
  | index, i :: rest => do
    let i' ← retargetDecode positions index i
    let rest' ← retargetAll positions (index + 1) rest
    .ok (i' :: rest')

/-- Embedding of `instruction_utils::from_bytes` (lines 104-196). -/
def fromBytes (bytes : List Nat) : Except CodecError (List Instruction) := do
  let pairs ← decodeLoop bytes bytes.length 0 0
  retargetAll (pairs.map Prod.fst) 0 (pairs.map Prod.snd)

/-! ## Class loader

Translated from `ristretto_classloader/src/class_loader.rs`.  A loader
chain is a list with the calling loader first and the bootstrap loader
last (the Rust walks `parent()` links to build the same flat list and
then iterates it in reverse).  `read_class` on a `ClassPath` is
abstracted to an association-list lookup of raw class-file blobs
(identified by a `Nat`); `Class::new` allocates a fresh `Arc`, so a
runtime class carries an allocation identity `uid` drawn from a
counter threaded through `load_class`. -/

/-- Failure modes of class loading. -/
inductive LoaderError where
  | classNotFound (name : String)
deriving DecidableEq, Repr

/-- A runtime `Class`: the index (in the chain) of its defining
loader, the class-file blob it was parsed from, and its allocation
identity. -/
structure RtClass where
  loaderIndex : Nat
  file : Nat
  uid : Nat
deriving DecidableEq, Repr

/-- A `ClassLoader`: name, class path (name to class-file blob), and
the owned class cache. -/
structure Loader where
  name : String
  classPath : List (String × Nat)
  cache : List (String × RtClass)
deriving DecidableEq, Repr

/-- Embedding of `ClassPath::read_class`: the class-file blob for `name`, if the
loader's class path has it. -/
def readClass (l : Loader) (name : String) : Option Nat :=
  l.classPath.lookup name

/-- Embedding of `DashMap::insert` into a loader's cache (newest entry shadows). -/
def cacheInsert (l : Loader) (name : String) (c : RtClass) : Loader :=
  { l with cache := (name, c) :: l.cache }

/-- Delegation loop of `load_class` (lines 69-77): try the loaders at
the given chain indices in order; on the first whose class path has
the name, construct a fresh `Class` bound to that loader, insert it
into that loader's cache and return. -/
def delegateOver (chain : List Loader) (counter : Nat) (name : String) :
    List Nat → Except LoaderError (RtClass × List Loader × Nat)
  | [] => .error (.classNotFound name)
  | i :: rest =>
    match chain.get? i with
    | some loader =>
      match readClass loader name with
      | some file =>
        let c : RtClass := ⟨i, file, counter⟩
        .ok (c, chain.set i (cacheInsert loader name c), counter + 1)
      | none => delegateOver chain counter name rest
    | none => delegateOver chain counter name rest

/-- Embedding of `ClassLoader::load_class` (lines 54-80): return the cached class
when the calling loader's own cache has the name; otherwise delegate
over the chain from the bootstrap loader (highest index) downward. -/
def load_class (chain : List Loader) (counter : Nat) (name : String) :
    Except LoaderError (RtClass × List Loader × Nat) :=
  match chain with
  | [] => .error (.classNotFound name)
  | caller :: _ =>
    match caller.cache.lookup name with
    | some c => .ok (c, chain, counter)
    | none => delegateOver chain counter name (List.range chain.length).reverse

/-! ## Runtime values and the `ldc` family

Translated from `ristretto_vm/src/instruction/ldc.rs`.  `f32` / `f64`
payloads are carried as opaque bit patterns: the constant loaders only
route them, never compute with them. -/

/-- The constant-pool entry tags. -/
inductive Constant where
  | utf8 (s : String)
  | integer (value : Int)
  | float (bits : Nat)
  | long (value : Int)
  | double (bits : Nat)
  | classRef (nameIndex : Nat)
  | stringRef (utf8Index : Nat)
  | fieldRef (classIndex nameAndTypeIndex : Nat)
  | methodRef (classIndex nameAndTypeIndex : Nat)
  | interfaceMethodRef (classIndex nameAndTypeIndex : Nat)
  | nameAndType (nameIndex descriptorIndex : Nat)
  | methodHandle (kind referenceIndex : Nat)
  | methodType (descriptorIndex : Nat)
  | dynamic (bootstrapIndex nameAndTypeIndex : Nat)
  | invokeDynamic (bootstrapIndex nameAndTypeIndex : Nat)
  | moduleRef (nameIndex : Nat)
  | packageRef (nameIndex : Nat)
deriving DecidableEq, Repr

/-- Heap references (array specializations per primitive type, plus
opaque object references). -/
inductive RefV where
  | boolArray (elements : List Bool)
  | byteArray (elements : List Int)
  | charArray (elements : List Nat)
  | intArray (elements : List Int)
  | longArray (elements : List Int)
  | floatArray (elements : List Nat)
  | doubleArray (elements : List Nat)
  | objectRef (id : Nat)
deriving DecidableEq, Repr

/-- The runtime `Value` sum. -/
inductive Value where
  | int (v : Int)
  | long (v : Int)
  | float (bits : Nat)
  | double (bits : Nat)
  | object (reference : Option RefV)
deriving DecidableEq, Repr

/-- Host-side VM error kinds used by the embedded fragments. -/
inductive VmError where
  | invalidConstantIndex (index : Nat)
  | invalidConstant (expected : String) (actual : Constant)
  | invalidOperand (expected : String)
  | internalError (message : String)
deriving DecidableEq, Repr

/-- Embedding of `ConstantPool::get`: constants are addressed by 1-based indices;
index 0 never resolves. -/
def getConstant (pool : List Constant) (index : Nat) : Option Constant :=
  if index = 0 then none else pool.get? (index - 1)

/-- Embedding of `ConstantPool::try_get_utf8`. -/
def tryGetUtf8 (pool : List Constant) (index : Nat) : Except VmError String :=
  match getConstant pool index with
  | some (.utf8 s) => .ok s
  | some c => .error (.invalidConstant "utf8" c)
  | none => .error (.invalidConstantIndex index)

/-- Environment for the `String` and `Class` arms of `load_constant`:
`utf8_value.to_object(&vm)` and `thread.class(..).to_object(&vm)` are
runtime effects abstracted as fallible value constructors. -/
structure LdcEnv where
  stringObject : String → Except VmError Value
  classObject : String → Except VmError Value

/-- Embedding of `load_constant` (ldc.rs lines 48-79): the value pushed for the
constant at `index`, or the error raised. -/
def load_constant (env : LdcEnv) (pool : List Constant) (index : Nat) :
    Except VmError Value :=
  match getConstant pool index with
  | none => .error (.invalidConstantIndex index)
  | some c =>
    match c with
    | .integer v => .ok (.int v)
    | .float bits => .ok (.float bits)
    | .stringRef utf8Index => do
      let s ← tryGetUtf8 pool utf8Index
      env.stringObject s
    | .classRef classIndex => do
      let s ← tryGetUtf8 pool classIndex
      env.classObject s
    | c => .error (.invalidConstant "integer|float|string|class" c)

/-- Embedding of `ldc` (lines 11-14): the `u8` index is widened and both `ldc` and
`ldc_w` defer to `load_constant`. -/
def ldc (env : LdcEnv) (pool : List Constant) (index : Nat) : Except VmError Value :=
  load_constant env pool index

/-- Embedding of `ldc2_w` (lines 24-42). -/
def ldc2_w (pool : List Constant) (index : Nat) : Except VmError Value :=
  match getConstant pool index with
  | none => .error (.invalidConstantIndex index)
  | some (.long v) => .ok (.long v)
  | some (.double bits) => .ok (.double bits)
  | some c => .error (.invalidConstant "long|double" c)

/-- The four tags `load_constant` accepts. -/
def isLdcLoadable : Constant → Bool
  | .integer _ => true
  | .float _ => true
  | .stringRef _ => true
  | .classRef _ => true
  | _ => false

/-- The two tags `ldc2_w` accepts. -/
def isLdc2Loadable : Constant → Bool
  | .long _ => true
  | .double _ => true
  | _ => false

/-! ## `Unsafe.put*` non-volatile primitive writers

Translated from
`ristretto_vm/src/native_methods/jdk/internal/misc/unsafe.rs`
(`put_int` lines 1105-1117, `put_boolean` lines 986-998).  The native
pops the value, the long offset and the target object from its
argument record; arguments are given here in Java order
(object, offset, value).  The result pairs the native's return value
(`None`) with the value the popped object slot holds afterwards. -/

/-- Embedding of `put_int`: replaces the entire popped target value with a fresh
`IntArray` of `offset` copies of `x` (the `Reference::from(vec![x; offset])`
of line 1114). -/
def put_int (object offset x : Value) : Except VmError (Option Value × Value) :=
  match x with
  | .int xv =>
    match offset with
    | .long n =>
      if 0 ≤ n then
        match object with
        | .object _ =>
          .ok (none, .object (some (.intArray (List.replicate n.toNat xv))))
        | _ => .error (.internalError "putInt: Invalid reference")
      else .error (.internalError "usize conversion")
    | _ => .error (.invalidOperand "long")
  | _ => .error (.invalidOperand "int")

/-- Embedding of `put_boolean`: as `put_int`, with the popped int compared against
zero and the buffer a `BooleanArray` (lines 991-996). -/
def put_boolean (object offset x : Value) : Except VmError (Option Value × Value) :=
  match x with
  | .int xv =>
    let b : Bool := xv != 0
    match offset with
    | .long n =>
      if 0 ≤ n then
        match object with
        | .object _ =>
          .ok (none, .object (some (.boolArray (List.replicate n.toNat b))))
        | _ => .error (.internalError "putBoolean: Invalid reference")
      else .error (.internalError "usize conversion")
    | _ => .error (.invalidOperand "long")
  | _ => .error (.invalidOperand "int")

/-! ## VM bootstrap

Translated from `ristretto_vm/src/vm.rs`. -/

/-- Modelled from the spec: class-file versions are ordered by
(major, minor); the `Version` enum itself lives in
`ristretto_classfile`, outside `src/`. -/
structure Version where
  major : Nat
  minor : Nat
deriving DecidableEq, Repr

/-- The derived `<=` on versions: lexicographic on (major, minor). -/
def Version.le (a b : Version) : Bool :=
  a.major < b.major || (a.major == b.major && a.minor ≤ b.minor)

/-- The `JAVA_8` constant: class-file major version 52. -/
def java8 : Version := ⟨52, 0⟩

/-- One `VM::invoke` call: class, method, descriptor, arguments. -/
structure Invocation where
  className : String
  methodName : String
  descriptor : String
  arguments : List Value
deriving DecidableEq, Repr

/-- Invocation record for `System.initializeSystemClass()V`. -/
def sysInitCall : Invocation :=
  ⟨"java.lang.System", "initializeSystemClass", "()V", []⟩

/-- Invocation record for `System.initPhase1()V`. -/
def initPhase1Call : Invocation :=
  ⟨"java.lang.System", "initPhase1", "()V", []⟩

/-- Invocation record for `System.initPhase2(ZZ)I` with both boolean arguments true
(`Value::Int(1)`). -/
def initPhase2Call : Invocation :=
  ⟨"java.lang.System", "initPhase2", "(ZZ)I", [.int 1, .int 1]⟩

/-- Invocation record for `System.initPhase3()V`. -/
def initPhase3Call : Invocation :=
  ⟨"java.lang.System", "initPhase3", "()V", []⟩

/-- Embedding of the VM bootstrap phases (vm.rs lines 223-261), with `VM::invoke`
abstracted as an oracle.  Returns the invocations performed, in
order. -/
def vmInit (v : Version)
    (oracle : Invocation → Except VmError (Option Value)) :
    Except VmError (List Invocation) :=
  if Version.le v java8 then do
    let _ ← oracle sysInitCall
    .ok [sysInitCall]
  else do
    let _ ← oracle initPhase1Call
    let phase2Result ← oracle initPhase2Call
    match phase2Result with
    | some (.int result) =>
      if result ≠ 0 then
        .error (.internalError "System::initPhase2() call failed")
      else do
        let _ ← oracle initPhase3Call
        .ok [initPhase1Call, initPhase2Call, initPhase3Call]
    | _ => .error (.internalError "System::initPhase2() call failed")

/-- Rust `str::split('.')`, on the string's character list. -/
def splitDotAux : List Char → List Char → List (List Char)
  | [], acc => [acc.reverse]
  | c :: rest, acc =>
    if c = '.' then acc.reverse :: splitDotAux rest []
    else splitDotAux rest (c :: acc)

/-- Rust `str::split('.')`: the dot-separated components (always at
least one, so `split('.').next().unwrap_or("0")` never takes its
default). -/
def splitDot (s : List Char) : List (List Char) := splitDotAux s []

/-- Decimal digit value of a character. -/
def digitVal (c : Char) : Option Nat :=
  if '0' ≤ c ∧ c ≤ '9' then some (c.toNat - 48) else none

/-- Accumulating decimal parse. -/
def digitsToNatAux : Nat → List Char → Option Nat
  | acc, [] => some acc
  | acc, c :: rest =>
    match digitVal c with
    | some d => digitsToNatAux (acc * 10 + d) rest
    | none => none

/-- Rust `str::parse::<u16>` on the character list: a non-empty digit
string whose value fits in 16 bits (sign prefixes are out of the
discovered-version domain and elided). -/
def parseU16 (s : List Char) : Except VmError Nat :=
  match s with
  | [] => .error (.internalError "parse")
  | _ =>
    match digitsToNatAux 0 s with
    | some n => if n < 65536 then .ok n else .error (.internalError "parse")
    | none => .error (.internalError "parse")

/-- Embedding of `VM::new` lines 69-71: the class-file major version is the first
dot-separated component of the discovered Java version string plus
`CLASS_FILE_MAJOR_VERSION_OFFSET = 44`.  The final range check stands
for `Version::from` (modelled from the spec: supported class-file
majors are 45, Java 1.0, through the latest targeted version). -/
def classFileMajorVersion (javaVersion : String) : Except VmError Nat := do
  let firstComponent := (splitDot javaVersion.data).headD ['0']
  let m ← parseU16 firstComponent
  let v := m + 44
  if 45 ≤ v ∧ v ≤ 67 then .ok v else .error (.internalError "unsupported version")

/-- Embedding of `VM::next_thread_id` (vm.rs lines 192-198): `fetch_add(1)` on a
wrapping 64-bit counter returns the previous value; the id 0 (reached
only on wraparound) is rejected with an error. -/
def next_thread_id (counter : Nat) : (Except VmError Nat) × Nat :=
  let id := counter
  let counter' := (counter + 1) % 18446744073709551616
  (if id = 0 then .error (.internalError "Thread identifier overflow") else .ok id,
   counter')

/-- The counter before the `k`-th allocation; `VM::new` initializes it
to 1 (`AtomicU64::new(1)`, vm.rs line 126). -/
def threadIdCounter : Nat → Nat
  | 0 => 1
  | k + 1 => (next_thread_id (threadIdCounter k)).2

/-- The result of the `k`-th thread-id allocation after VM
construction (the primordial thread takes allocation 0). -/
def threadIdAt (k : Nat) : Except VmError Nat :=
  (next_thread_id (threadIdCounter k)).1

/-! ## Theorems -/

/-- Reduction of a successful `Except` bind. -/
theorem except_bind_ok {ε α β : Type} (a : α) (f : α → Except ε β) :
    (Except.ok a >>= f : Except ε β) = f a := rfl

/-- C6: every non-volatile `Unsafe.put*` native replaces the entire
popped target reference with a freshly created buffer of `offset`
copies of the value — the result is independent of the target's prior
contents, so nothing is written at a byte offset within the existing
storage.  Shown for `putInt` (an `IntArray` of `n` copies of `x`) and
`putBoolean` (a `BooleanArray` of `n` copies of `x != 0`). -/
theorem unsafe_put_replaces_target_with_filled_buffer
    (r₁ r₂ : Option RefV) (n : Nat) (x : Int) :
    put_int (.object r₁) (.long (n : Int)) (.int x)
        = .ok (none, .object (some (.intArray (List.replicate n x))))
    ∧ put_int (.object r₁) (.long (n : Int)) (.int x)
        = put_int (.object r₂) (.long (n : Int)) (.int x)
    ∧ put_boolean (.object r₁) (.long (n : Int)) (.int x)
        = .ok (none, .object (some (.boolArray (List.replicate n (x != 0))))) := by
  refine ⟨?_, ?_, ?_⟩ <;>
    simp [put_int, put_boolean, Int.toNat_natCast]

/-- The counter `threadIdCounter` counts up from 1 until the 64-bit wraparound. -/
theorem threadIdCounter_eq (k : Nat) (h : k + 1 < 18446744073709551616) :
    threadIdCounter k = k + 1 := by
  induction k with
  | zero => rfl
  | succ k ih =>
    have hk : k + 1 < 18446744073709551616 := by omega
    simp only [threadIdCounter, next_thread_id, ih hk]
    omega

/-- C9: thread-id allocation never returns 0 (the wrapped-around id 0
is rejected with an error), successive allocations return strictly
increasing ids, and the first allocation after VM construction — the
primordial thread's — returns id 1. -/
theorem thread_id_allocation (k : Nat) (h : k + 2 < 18446744073709551616) :
    threadIdAt k = .ok (k + 1)
    ∧ threadIdAt (k + 1) = .ok (k + 2)
    ∧ k + 1 < k + 2
    ∧ (∀ j v, threadIdAt j = .ok v → v ≠ 0)
    ∧ threadIdAt 0 = .ok 1 := by
  have h1 : threadIdCounter k = k + 1 := threadIdCounter_eq k (by omega)
  have h2 : threadIdCounter (k + 1) = k + 2 := threadIdCounter_eq (k + 1) (by omega)
  refine ⟨?_, ?_, by omega, ?_, by decide⟩
  · simp [threadIdAt, next_thread_id, h1]
  · simp [threadIdAt, next_thread_id, h2]
  · intro j v hv
    simp only [threadIdAt, next_thread_id] at hv
    by_cases hz : threadIdCounter j = 0
    · simp [hz] at hv
    · simp [hz] at hv
      omega

/-- C9 witness: the first two allocations return 1 and 2. -/
theorem thread_id_allocation_witness :
    0 + 2 < 18446744073709551616
    ∧ (threadIdAt 0 = .ok (0 + 1)
      ∧ threadIdAt (0 + 1) = .ok (0 + 2)
      ∧ 0 + 1 < 0 + 2
      ∧ (∀ j v, threadIdAt j = .ok v → v ≠ 0)
      ∧ threadIdAt 0 = .ok 1) :=
  ⟨by decide, thread_id_allocation 0 (by decide)⟩

/-- C7: VM bootstrap invokes `System.initializeSystemClass()V` when
the class-file version is at most Java 8 (major 52), and otherwise
`System.initPhase1()V`, then `System.initPhase2(ZZ)I` with both
arguments true (`Int(1)`), failing with an error unless the result is
`Int(0)`, and then `System.initPhase3()V`. -/
theorem vm_bootstrap_phases (v : Version)
    (oracle : Invocation → Except VmError (Option Value)) :
    (Version.le v java8 = true → ∀ r, oracle sysInitCall = .ok r →
        vmInit v oracle = .ok [sysInitCall])
    ∧ (Version.le v java8 = false → ∀ r₁, oracle initPhase1Call = .ok r₁ →
        ((oracle initPhase2Call = .ok (some (.int 0)) →
            ∀ r₃, oracle initPhase3Call = .ok r₃ →
              vmInit v oracle = .ok [initPhase1Call, initPhase2Call, initPhase3Call])
          ∧ (∀ res, oracle initPhase2Call = .ok res → res ≠ some (.int 0) →
              vmInit v oracle
                = .error (.internalError "System::initPhase2() call failed"))))
    ∧ initPhase2Call.arguments = [.int 1, .int 1] := by
  refine ⟨?_, ?_, rfl⟩
  · intro hle r hr
    simp [vmInit, hle, hr, except_bind_ok]
  · intro hgt r₁ h₁
    constructor
    · intro h₂ r₃ h₃
      simp [vmInit, hgt, h₁, h₂, h₃, except_bind_ok]
    · intro res h₂ hne
      simp only [vmInit, hgt, Bool.false_eq_true, if_false, h₁, h₂, except_bind_ok]
      match res with
      | none => rfl
      | some (.int r) =>
        have : r ≠ 0 := fun hz => hne (by rw [hz])
        simp [this]
      | some (.long _) => rfl
      | some (.float _) => rfl
      | some (.double _) => rfl
      | some (.object _) => rfl

/-- Oracle used by the C7 witness: `initPhase2` answers `Int(0)`,
everything else answers `None`. -/
def bootstrapOracleW : Invocation → Except VmError (Option Value) :=
  fun c => if c = initPhase2Call then .ok (some (.int 0)) else .ok none

/-- C7 witness: a Java 21 class-file version (major 65) runs the three
`initPhase*` invocations in order. -/
theorem vm_bootstrap_phases_witness :
    vmInit ⟨65, 0⟩ bootstrapOracleW
      = .ok [initPhase1Call, initPhase2Call, initPhase3Call] :=
  ((vm_bootstrap_phases ⟨65, 0⟩ bootstrapOracleW).2.1 (by decide) none
      (by decide)).1 (by decide) none (by decide)

/-- C8: the class-file major version computed at VM construction is
the discovered Java version's major component plus 44. -/
theorem class_file_version_offset (s : String) (m : Nat)
    (hparse : parseU16 ((splitDot s.data).headD ['0']) = .ok m)
    (hlo : 1 ≤ m) (hhi : m ≤ 23) :
    classFileMajorVersion s = .ok (m + 44) := by
  simp only [classFileMajorVersion, hparse, except_bind_ok]
  have : 45 ≤ m + 44 ∧ m + 44 ≤ 67 := by omega
  simp [this]

/-- C8 witness: Java version string "21.0.1" yields class-file major
65. -/
theorem class_file_version_offset_witness :
    classFileMajorVersion "21.0.1" = .ok (21 + 44) :=
  class_file_version_offset "21.0.1" 21 (by decide) (by decide) (by decide)

/-- Environment used by the C5 theorems: string and class constants
resolve to opaque object values. -/
def ldcEnvW : LdcEnv :=
  ⟨fun _ => .ok (.object (some (.objectRef 0))),
   fun _ => .ok (.object (some (.objectRef 1)))⟩

/-- C5 counterexample: the claim says `ldc` succeeds for a constant
tagged `MethodHandle`, but `load_constant` rejects it with
`InvalidConstant` (its doc comment and tests confirm only
integer/float/string/class are accepted). -/
theorem ldc_method_handle_rejected :
    load_constant ldcEnvW [Constant.methodHandle 1 2] 1
      = .error (.invalidConstant "integer|float|string|class"
          (Constant.methodHandle 1 2)) := by
  decide

/-- C5 (amended): `ldc` / `ldc_w` succeed exactly for constants tagged
`Integer`, `Float`, `String`, `Class` (the latter two via the
environment), and fail with `InvalidConstant` for every other tag —
including `MethodHandle`, `MethodType` and `Dynamic`; `ldc2_w`
succeeds only for `Long` and `Double`; both fail with
`InvalidConstantIndex` when the index does not resolve. -/
theorem ldc_constant_acceptance (env : LdcEnv) (pool : List Constant) (index : Nat) :
    (getConstant pool index = none →
        load_constant env pool index = .error (.invalidConstantIndex index)
        ∧ ldc2_w pool index = .error (.invalidConstantIndex index))
    ∧ (∀ v, getConstant pool index = some (.integer v) →
        load_constant env pool index = .ok (.int v))
    ∧ (∀ b, getConstant pool index = some (.float b) →
        load_constant env pool index = .ok (.float b))
    ∧ (∀ u s v, getConstant pool index = some (.stringRef u) →
        tryGetUtf8 pool u = .ok s → env.stringObject s = .ok v →
        load_constant env pool index = .ok v)
    ∧ (∀ u s v, getConstant pool index = some (.classRef u) →
        tryGetUtf8 pool u = .ok s → env.classObject s = .ok v →
        load_constant env pool index = .ok v)
    ∧ (∀ c, getConstant pool index = some c → isLdcLoadable c = false →
        load_constant env pool index
          = .error (.invalidConstant "integer|float|string|class" c))
    ∧ (∀ v, getConstant pool index = some (.long v) →
        ldc2_w pool index = .ok (.long v))
    ∧ (∀ b, getConstant pool index = some (.double b) →
        ldc2_w pool index = .ok (.double b))
    ∧ (∀ c, getConstant pool index = some c → isLdc2Loadable c = false →
        ldc2_w pool index = .error (.invalidConstant "long|double" c)) := by
  refine ⟨?_, ?_, ?_, ?_, ?_, ?_, ?_, ?_, ?_⟩
  · intro h
    constructor <;> simp [load_constant, ldc2_w, h]
  · intro v h
    simp [load_constant, h]
  · intro b h
    simp [load_constant, h]
  · intro u s v h hu hs
    simp [load_constant, h, hu, hs, except_bind_ok]
  · intro u s v h hu hs
    simp [load_constant, h, hu, hs, except_bind_ok]
  · intro c h hc
    cases c <;> simp_all [load_constant, isLdcLoadable]
  · intro v h
    simp [ldc2_w, h]
  · intro b h
    simp [ldc2_w, h]
  · intro c h hc
    cases c <;> simp_all [ldc2_w, isLdc2Loadable]

/-- Reduction of a failed `Except` bind. -/
theorem except_bind_error {ε α β : Type} (e : ε) (f : α → Except ε β) :
    (Except.error e >>= f : Except ε β) = Except.error e := rfl

/-- C1 (code bug): the instruction-codec round-trip fails on a
tableswitch whose instruction index differs from its byte position.
For `I = [bipush 0, tableswitch{default: 1, low: 0, high: 0,
offsets: [1]}, nop]` the switch is instruction 1 at byte 2 and its
targets are instruction 2 at byte 20.  Decoding the correct encoding
(offset words 18 = byte distance) yields `I`, but re-encoding `I`
emits offset words 19 (`to_bytes` subtracts the switch's instruction
index instead of its byte position, instruction_utils.rs lines 59/67),
so `encode (decode C) ≠ C`; and decoding `to_bytes I` panics at the
`.expect("byte instruction")` of line 155 because byte 2 + 19 = 21 is
not an instruction start, so `from_bytes (to_bytes I) ≠ I`. -/
theorem instruction_codec_roundtrip_failure :
    fromBytes [16, 0, 170, 0, 0, 0, 0, 18, 0, 0, 0, 0, 0, 0, 0, 0, 0, 0, 0, 18, 0]
      = .ok [.bipush 0, .tableswitch 1 0 0 [1], .simple .nop]
    ∧ toBytes [.bipush 0, .tableswitch 1 0 0 [1], .simple .nop]
      = .ok [16, 0, 170, 0, 0, 0, 0, 19, 0, 0, 0, 0, 0, 0, 0, 0, 0, 0, 0, 19, 0]
    ∧ ([16, 0, 170, 0, 0, 0, 0, 19, 0, 0, 0, 0, 0, 0, 0, 0, 0, 0, 0, 19, 0]
        : List Nat)
      ≠ [16, 0, 170, 0, 0, 0, 0, 18, 0, 0, 0, 0, 0, 0, 0, 0, 0, 0, 0, 18, 0]
    ∧ (toBytes [.bipush 0, .tableswitch 1 0 0 [1], .simple .nop]).bind fromBytes
      = .error .expectPanic := by
  decide

/-- C2 (code bug): the second pass of `to_bytes` writes a switch
target as the target's byte position minus the switch's **instruction
index**, not the byte distance.  On
`[bipush 0, tableswitch{1, 0, 0, [1]}, nop]` the switch (instruction
index 1) sits at byte 2 and its default target (instruction 2) at byte
20: the emitted default word (bytes 4-7) is 19 = 20 - 1, whereas the
byte distance the claim requires is 20 - 2 = 18.  Simple branches do
get the byte distance: `[nop, ifeq 0]` targets instruction 0 at byte
0 from the branch at byte 1 and is serialized as 0xFFFF = -1. -/
theorem switch_target_serialization_bug :
    computePositions 0 0 [.bipush 0, .tableswitch 1 0 0 [1], .simple .nop]
      = .ok [0, 2, 20]
    ∧ toBytes [.bipush 0, .tableswitch 1 0 0 [1], .simple .nop]
      = .ok [16, 0, 170, 0, 0, 0, 0, 19, 0, 0, 0, 0, 0, 0, 0, 0, 0, 0, 0, 19, 0]
    ∧ readI32 [16, 0, 170, 0, 0, 0, 0, 19, 0, 0, 0, 0, 0, 0, 0, 0, 0, 0, 0, 19, 0] 4
      = .ok 19
    ∧ (19 : Int) = 20 - 1
    ∧ (19 : Int) ≠ 20 - 2
    ∧ toBytes [.simple .nop, .branch .ifeq 0] = .ok [0, 153, 255, 255]
    ∧ decI16 (255 * 256 + 255) = 0 - 1 := by
  decide

/-- C3 counterexample: the claim's uniform formula
`byte_to_instruction(branch_byte_pos + offset) - current_instruction_index`
fails for simple branch opcodes.  Decoding `[0, 153, 255, 255]`
(`nop`, then `ifeq` at byte 1 with stored offset -1) yields target
field 0 — the **absolute** instruction index
`byte_to_instruction(1 + (-1)) = 0` — while the claim's formula gives
`0 - 1 = -1 ≠ 0` (the code subtracts the instruction index only for
tableswitch/lookupswitch targets, instruction_utils.rs lines 139-141
versus 148-157). -/
theorem branch_decode_without_index_subtraction :
    fromBytes [0, 153, 255, 255] = .ok [.simple .nop, .branch .ifeq 0]
    ∧ Except.map (List.map Prod.fst) (decodeLoop [0, 153, 255, 255] 4 0 0)
      = .ok [0, 1]
    ∧ decI16 65535 = -1
    ∧ byteToInstruction [0, 1] (((1 : Int) + decI16 65535).toNat) = some 0
    ∧ ((0 : Int) - (1 : Int)) ≠ ((0 : Nat) : Int) := by
  decide

/-- Elementwise consequence of a successful `retargetAll`. -/
theorem retargetAll_get? (positions : List Nat) (start : Nat)
    (L out : List Instruction) (h : retargetAll positions start L = .ok out) :
    ∀ i raw, L.get? i = some raw →
      ∃ res, retargetDecode positions (start + i) raw = .ok res
        ∧ out.get? i = some res := by
  induction L generalizing start out with
  | nil => intro i raw hi; simp at hi
  | cons a t ih =>
    intro i raw hi
    simp only [retargetAll] at h
    cases hr : retargetDecode positions start a with
    | error e => rw [hr, except_bind_error] at h; cases h
    | ok a' =>
      rw [hr, except_bind_ok] at h
      cases ht : retargetAll positions (start + 1) t with
      | error e => rw [ht, except_bind_error] at h; cases h
      | ok t' =>
        rw [ht, except_bind_ok] at h
        have hout : out = a' :: t' := by cases h; rfl
        subst hout
        cases i with
        | zero =>
          rw [List.get?_cons_zero] at hi
          cases hi
          exact ⟨a', by simpa using hr, rfl⟩
        | succ n =>
          rw [List.get?_cons_succ] at hi
          obtain ⟨res, hres, hget⟩ := ih (start + 1) t' ht n raw hi
          refine ⟨res, ?_, hget⟩
          rw [show start + (n + 1) = start + 1 + n by omega]
          exact hres

/-- Elementwise consequence of a successful `mapExcept`. -/
theorem mapExcept_get? {α β ε : Type} (f : α → Except ε β) (l : List α)
    (out : List β) (h : mapExcept f l = .ok out) :
    ∀ i a, l.get? i = some a → ∃ b, f a = .ok b ∧ out.get? i = some b := by
  induction l generalizing out with
  | nil => intro i a hi; simp at hi
  | cons a t ih =>
    intro i x hi
    simp only [mapExcept] at h
    cases hf : f a with
    | error e => rw [hf, except_bind_error] at h; cases h
    | ok b =>
      rw [hf, except_bind_ok] at h
      cases ht : mapExcept f t with
      | error e => rw [ht, except_bind_error] at h; cases h
      | ok t' =>
        rw [ht, except_bind_ok] at h
        have hout : out = b :: t' := by cases h; rfl
        subst hout
        cases i with
        | zero =>
          rw [List.get?_cons_zero] at hi
          cases hi
          exact ⟨b, hf, rfl⟩
        | succ n =>
          rw [List.get?_cons_succ] at hi
          obtain ⟨b', hb', hget⟩ := ih t' ht n x hi
          exact ⟨b', hb', hget⟩

/-- A switch target inside the decoder's byte range translates to the
target's instruction index minus the switch's instruction index. -/
theorem decodeSwitchTarget_ok (positions : List Nat) (index pos : Nat) (d : Int)
    (hd : 0 ≤ d) (hlt : pos + d.toNat < 65536) (t : Nat)
    (ht : byteToInstruction positions (pos + d.toNat) = some t) :
    decodeSwitchTarget positions index pos d = .ok ((t : Int) - (index : Int)) := by
  simp [decodeSwitchTarget, hd, hlt, ht]

/-- C3 (amended): deserialization maps each **simple** branch's stored
byte-offset to the absolute instruction index
`byte_to_instruction(branch_byte_pos + offset)` — with **no**
subtraction of the branch's instruction index — while each
tableswitch/lookupswitch default and case target is mapped to
`byte_to_instruction(switch_byte_pos + offset) - switch_instruction_index`. -/
theorem from_bytes_target_translation (bytes : List Nat)
    (pairs : List (Nat × Instruction)) (out : List Instruction)
    (hscan : decodeLoop bytes bytes.length 0 0 = .ok pairs)
    (hout : fromBytes bytes = .ok out) :
    (∀ pos kind raw, bytes.get? pos = some (BranchKind.code kind) →
        readU16 bytes (pos + 1) = .ok raw →
        0 ≤ (pos : Int) + decI16 raw → (pos : Int) + decI16 raw < 65536 →
        instrFromBytes bytes pos
          = .ok (.branch kind ((pos : Int) + decI16 raw).toNat, pos + 3))
    ∧ (∀ i p kind offset, pairs.get? i = some (p, .branch kind offset) →
        ∃ t, byteToInstruction (pairs.map Prod.fst) offset = some t
          ∧ out.get? i = some (.branch kind t))
    ∧ (∀ i p kind offset, pairs.get? i = some (p, .branch_w kind offset) →
        ∃ t, byteToInstruction (pairs.map Prod.fst) offset = some t
          ∧ out.get? i = some (.branch_w kind t))
    ∧ (∀ i p d low high offs, pairs.get? i = some (p, .tableswitch d low high offs) →
        ∃ d' offs',
          decodeSwitchTarget (pairs.map Prod.fst) i p d = .ok d'
          ∧ mapExcept (decodeSwitchTarget (pairs.map Prod.fst) i p) offs = .ok offs'
          ∧ out.get? i = some (.tableswitch d' low high offs')
          ∧ (∀ t, 0 ≤ d → p + d.toNat < 65536 →
              byteToInstruction (pairs.map Prod.fst) (p + d.toNat) = some t →
              d' = (t : Int) - (i : Int))
          ∧ (∀ j o, offs.get? j = some o →
              ∃ o', decodeSwitchTarget (pairs.map Prod.fst) i p o = .ok o'
                ∧ offs'.get? j = some o'))
    ∧ (∀ i p d ps, pairs.get? i = some (p, .lookupswitch d ps) →
        ∃ d' ps',
          decodeSwitchTarget (pairs.map Prod.fst) i p d = .ok d'
          ∧ out.get? i = some (.lookupswitch d' ps')
          ∧ (∀ t, 0 ≤ d → p + d.toNat < 65536 →
              byteToInstruction (pairs.map Prod.fst) (p + d.toNat) = some t →
              d' = (t : Int) - (i : Int))
          ∧ (∀ j k o, ps.get? j = some (k, o) →
              ∃ o', decodeSwitchTarget (pairs.map Prod.fst) i p o = .ok o'
                ∧ ps'.get? j = some (k, o'))) := by
  have hretarget : retargetAll (pairs.map Prod.fst) 0 (pairs.map Prod.snd) = .ok out := by
    simp only [fromBytes, hscan, except_bind_ok] at hout
    exact hout
  have hsnd : ∀ i p raw, pairs.get? i = some (p, raw) →
      (pairs.map Prod.snd).get? i = some raw := by
    intro i p raw hi
    rw [List.get?_map, hi]
    rfl
  have helem := retargetAll_get? (pairs.map Prod.fst) 0 (pairs.map Prod.snd) out hretarget
  have hfst : ∀ i p raw, pairs.get? i = some (p, raw) →
      (pairs.map Prod.fst).get? i = some p := by
    intro i p raw hi
    rw [List.get?_map, hi]
    rfl
  refine ⟨?_, ?_, ?_, ?_, ?_⟩
  · intro pos kind raw hb hraw h0 h1
    have hop : readU8 bytes pos = .ok (BranchKind.code kind) := by
      unfold readU8
      rw [hb]
    have hsimple : simpleOpOfCode (BranchKind.code kind) = none := by
      cases kind <;> rfl
    have hbr : branchKindOfCode (BranchKind.code kind) = some kind := by
      cases kind <;> rfl
    unfold instrFromBytes
    rw [hop, except_bind_ok]
    simp only [hsimple, hbr, hraw, except_bind_ok]
    rw [if_pos ⟨h0, h1⟩]
  · intro i p kind offset hi
    obtain ⟨res, hres, hget⟩ := helem i (.branch kind offset) (hsnd i p _ hi)
    rw [Nat.zero_add] at hres
    simp only [retargetDecode] at hres
    cases hb : byteToInstruction (pairs.map Prod.fst) offset with
    | none => rw [hb] at hres; cases hres
    | some t =>
      rw [hb] at hres
      cases hres
      exact ⟨t, rfl, hget⟩
  · intro i p kind offset hi
    obtain ⟨res, hres, hget⟩ := helem i (.branch_w kind offset) (hsnd i p _ hi)
    rw [Nat.zero_add] at hres
    simp only [retargetDecode] at hres
    cases hb : byteToInstruction (pairs.map Prod.fst) offset with
    | none => rw [hb] at hres; cases hres
    | some t =>
      rw [hb] at hres
      cases hres
      exact ⟨t, rfl, hget⟩
  · intro i p d low high offs hi
    obtain ⟨res, hres, hget⟩ := helem i (.tableswitch d low high offs) (hsnd i p _ hi)
    rw [Nat.zero_add] at hres
    simp only [retargetDecode, hfst i p _ hi] at hres
    cases hd : decodeSwitchTarget (pairs.map Prod.fst) i p d with
    | error e => rw [hd, except_bind_error] at hres; cases hres
    | ok d' =>
      rw [hd, except_bind_ok] at hres
      cases hm : mapExcept (decodeSwitchTarget (pairs.map Prod.fst) i p) offs with
      | error e => rw [hm, except_bind_error] at hres; cases hres
      | ok offs' =>
        rw [hm, except_bind_ok] at hres
        cases hres
        refine ⟨d', offs', rfl, rfl, hget, ?_, ?_⟩
        · intro t h0 h1 ht
          have := decodeSwitchTarget_ok (pairs.map Prod.fst) i p d h0 h1 t ht
          rw [hd] at this
          cases this
          rfl
        · intro j o hj
          exact mapExcept_get? _ offs offs' hm j o hj
  · intro i p d ps hi
    obtain ⟨res, hres, hget⟩ := helem i (.lookupswitch d ps) (hsnd i p _ hi)
    rw [Nat.zero_add] at hres
    simp only [retargetDecode, hfst i p _ hi] at hres
    cases hd : decodeSwitchTarget (pairs.map Prod.fst) i p d with
    | error e => rw [hd, except_bind_error] at hres; cases hres
    | ok d' =>
      rw [hd, except_bind_ok] at hres
      cases hm : mapExcept (fun q => do
          let o ← decodeSwitchTarget (pairs.map Prod.fst) i p q.2
          Except.ok (q.1, o)) ps with
      | error e => rw [hm, except_bind_error] at hres; cases hres
      | ok ps' =>
        rw [hm, except_bind_ok] at hres
        cases hres
        refine ⟨d', ps', rfl, hget, ?_, ?_⟩
        · intro t h0 h1 ht
          have := decodeSwitchTarget_ok (pairs.map Prod.fst) i p d h0 h1 t ht
          rw [hd] at this
          cases this
          rfl
        · intro j k o hj
          obtain ⟨b, hb, hget'⟩ := mapExcept_get? _ ps ps' hm j (k, o) hj
          cases ho : decodeSwitchTarget (pairs.map Prod.fst) i p o with
          | error e => rw [ho, except_bind_error] at hb; cases hb
          | ok o' =>
            rw [ho, except_bind_ok] at hb
            cases hb
            exact ⟨o', rfl, hget'⟩

/-- C3 witness: on the correctly encoded tableswitch program from the
C1 analysis, the decoded switch default is
`byte_to_instruction(2 + 18) - 1 = 2 - 1 = 1`. -/
theorem from_bytes_target_translation_witness :
    ∃ d' offs',
      decodeSwitchTarget [0, 2, 20] 1 2 18 = .ok d'
      ∧ mapExcept (decodeSwitchTarget [0, 2, 20] 1 2) [18] = .ok offs'
      ∧ [Instruction.bipush 0, Instruction.tableswitch 1 0 0 [1],
          Instruction.simple SimpleOp.nop].get? 1
        = some (.tableswitch d' 0 0 offs') := by
  have h := from_bytes_target_translation
    [16, 0, 170, 0, 0, 0, 0, 18, 0, 0, 0, 0, 0, 0, 0, 0, 0, 0, 0, 18, 0]
    [(0, .bipush 0), (2, .tableswitch 18 0 0 [18]), (20, .simple .nop)]
    [.bipush 0, .tableswitch 1 0 0 [1], .simple .nop]
    (by decide) (by decide)
  obtain ⟨-, -, -, hsw, -⟩ := h
  obtain ⟨d', offs', hd, hm, hget, -, -⟩ :=
    hsw 1 2 18 0 0 [18] (by decide)
  exact ⟨d', offs', hd, hm, hget⟩

/-- Setting one list position leaves the others unchanged. -/
theorem get?_set_ne {α : Type} (l : List α) (i j : Nat) (a : α) (h : i ≠ j) :
    (l.set i a).get? j = l.get? j := by
  induction l generalizing i j with
  | nil => simp
  | cons b t ih =>
    cases i with
    | zero =>
      cases j with
      | zero => omega
      | succ m => simp [List.set]
    | succ n =>
      cases j with
      | zero => simp [List.set]
      | succ m => simpa [List.set] using ih n m (by omega)

/-- Setting a list position in range writes that position. -/
theorem get?_set_self {α : Type} (l : List α) (i : Nat) (a : α) (h : i < l.length) :
    (l.set i a).get? i = some a := by
  induction l generalizing i with
  | nil => simp at h
  | cons b t ih =>
    cases i with
    | zero => rfl
    | succ n => simpa [List.set] using ih n (by simpa using h)

/-- A successful `get?` bounds the index. -/
theorem get?_some_lt {α : Type} (l : List α) (i : Nat) (a : α)
    (h : l.get? i = some a) : i < l.length := by
  by_contra hc
  rw [List.get?_eq_none.mpr (by omega)] at h
  cases h

/-- When no tried loader's class path has the name, delegation fails
with `ClassNotFound`. -/
theorem delegateOver_all_none (chain : List Loader) (counter : Nat) (name : String)
    (is : List Nat)
    (h : ∀ i ∈ is, ∀ loader, chain.get? i = some loader →
        readClass loader name = none) :
    delegateOver chain counter name is = .error (.classNotFound name) := by
  induction is with
  | nil => rfl
  | cons i rest ih =>
    simp only [delegateOver]
    cases hg : chain.get? i with
    | none =>
      exact ih (fun j hj loader hl => h j (List.mem_cons_of_mem _ hj) loader hl)
    | some loader =>
      simp only [h i (List.mem_cons_self _ _) loader hg]
      exact ih (fun j hj loader' hl => h j (List.mem_cons_of_mem _ hj) loader' hl)

/-- Delegation over the reversed range resolves at the **root-most**
loader whose class path has the name: the loader at the largest index
`i` with a hit, every loader above it (closer to the root) missing. -/
theorem delegateOver_revRange_first (chain : List Loader) (counter : Nat)
    (name : String) (n i : Nat) (hi : i < n) (loader : Loader)
    (hget : chain.get? i = some loader) (file : Nat)
    (hread : readClass loader name = some file)
    (habove : ∀ j, i < j → j < n → ∀ loader', chain.get? j = some loader' →
        readClass loader' name = none) :
    delegateOver chain counter name (List.range n).reverse
      = .ok (⟨i, file, counter⟩,
             chain.set i (cacheInsert loader name ⟨i, file, counter⟩),
             counter + 1) := by
  induction n with
  | zero => omega
  | succ n ih =>
    rw [List.range_succ, List.reverse_append, List.reverse_singleton,
      List.singleton_append]
    by_cases hni : i = n
    · subst hni
      simp only [delegateOver, hget, hread]
    · have hi' : i < n := by omega
      simp only [delegateOver]
      cases hg : chain.get? n with
      | none =>
        exact ih hi' (fun j h1 h2 loader' hl => habove j h1 (by omega) loader' hl)
      | some loader' =>
        simp only [habove n (by omega) (by omega) loader' hg]
        exact ih hi' (fun j h1 h2 l' hl => habove j h1 (by omega) l' hl)

/-- Full characterization of `ClassLoader::load_class`, shared by the
delegation and caching theorems. -/
theorem load_class_cases (chain : List Loader) (counter : Nat) (name : String)
    (caller : Loader) (hhead : chain.get? 0 = some caller) :
    (∀ c, caller.cache.lookup name = some c →
        load_class chain counter name = .ok (c, chain, counter))
    ∧ (caller.cache.lookup name = none →
        (∀ i loader file, chain.get? i = some loader →
            readClass loader name = some file →
            (∀ j, i < j → ∀ loader', chain.get? j = some loader' →
                readClass loader' name = none) →
            load_class chain counter name
              = .ok (⟨i, file, counter⟩,
                     chain.set i (cacheInsert loader name ⟨i, file, counter⟩),
                     counter + 1))
        ∧ ((∀ i loader, chain.get? i = some loader →
              readClass loader name = none) →
            load_class chain counter name = .error (.classNotFound name))) := by
  cases chain with
  | nil => cases hhead
  | cons caller' rest =>
    have hc : caller' = caller := by
      rw [List.get?_cons_zero] at hhead
      cases hhead
      rfl
    subst hc
    refine ⟨?_, ?_⟩
    · intro c hc
      simp [load_class, hc]
    · intro hmiss
      refine ⟨?_, ?_⟩
      · intro i loader file hget hread habove
        simp only [load_class, hmiss]
        exact delegateOver_revRange_first (caller' :: rest) counter name
          (caller' :: rest).length i (get?_some_lt _ i loader hget) loader hget
          file hread (fun j h1 _ loader' hl => habove j h1 loader' hl)
      · intro hall
        simp only [load_class, hmiss]
        exact delegateOver_all_none (caller' :: rest) counter name _
          (fun i _ loader hl => hall i loader hl)

/-- C4: `load_class` first returns the cached class when the name is
in the calling loader's own cache; otherwise it tries the loaders from
the root of the parent chain downward (parent-first), and on the first
(root-most) hit constructs a class bound to that loader, inserts it
into **that** loader's cache alone, and returns it; if no loader's
class path has the name it fails with `ClassNotFound(name)`. -/
theorem load_class_parent_first (chain : List Loader) (counter : Nat) (name : String)
    (caller : Loader) (hhead : chain.get? 0 = some caller) :
    (∀ c, caller.cache.lookup name = some c →
        load_class chain counter name = .ok (c, chain, counter))
    ∧ (caller.cache.lookup name = none →
        (∀ i loader file, chain.get? i = some loader →
            readClass loader name = some file →
            (∀ j, i < j → ∀ loader', chain.get? j = some loader' →
                readClass loader' name = none) →
            load_class chain counter name
              = .ok (⟨i, file, counter⟩,
                     chain.set i (cacheInsert loader name ⟨i, file, counter⟩),
                     counter + 1))
        ∧ ((∀ i loader, chain.get? i = some loader →
              readClass loader name = none) →
            load_class chain counter name = .error (.classNotFound name))) :=
  load_class_cases chain counter name caller hhead

/-- Bootstrap loader used by the loader witnesses: its class path
resolves "HelloWorld" to blob 7. -/
def bootLoaderW : Loader := ⟨"bootstrap", [("HelloWorld", 7)], []⟩

/-- Child loader used by the loader witnesses: empty class path. -/
def childLoaderW : Loader := ⟨"child", [], []⟩

/-- C4 witness: a child-and-bootstrap chain resolves "HelloWorld" at
the bootstrap loader, caching it there. -/
theorem load_class_parent_first_witness :
    load_class [childLoaderW, bootLoaderW] 0 "HelloWorld"
      = .ok (⟨1, 7, 0⟩,
             ([childLoaderW, bootLoaderW] : List Loader).set 1
               (cacheInsert bootLoaderW "HelloWorld" ⟨1, 7, 0⟩),
             1) := by
  have habove : ∀ j, 1 < j → ∀ loader',
      ([childLoaderW, bootLoaderW] : List Loader).get? j = some loader' →
      readClass loader' "HelloWorld" = none := by
    intro j hj loader' hget
    rw [List.get?_eq_none.mpr (by simp; omega)] at hget
    cases hget
  exact ((load_class_parent_first [childLoaderW, bootLoaderW] 0 "HelloWorld"
    childLoaderW rfl).2 (by decide)).1 1 bootLoaderW 7 (by decide) (by decide) habove

/-- C10: `load_class` consults only the calling loader's own cache
before delegating, so when a class resolves only through an ancestor
loader's class path, each call on the child re-reads the class and
constructs a fresh `Class`, replacing the ancestor's cache entry: two
successive calls return two distinct class instances. -/
theorem load_class_fresh_instance_per_call (chain : List Loader) (counter : Nat)
    (name : String) (caller : Loader) (hhead : chain.get? 0 = some caller)
    (hmiss : caller.cache.lookup name = none)
    (hcallerPath : readClass caller name = none)
    (i : Nat) (loader : Loader) (file : Nat)
    (hget : chain.get? i = some loader)
    (hread : readClass loader name = some file)
    (habove : ∀ j, i < j → ∀ loader', chain.get? j = some loader' →
        readClass loader' name = none) :
    ∃ chain₁ chain₂,
      load_class chain counter name = .ok (⟨i, file, counter⟩, chain₁, counter + 1)
      ∧ load_class chain₁ (counter + 1) name
          = .ok (⟨i, file, counter + 1⟩, chain₂, counter + 2)
      ∧ (⟨i, file, counter⟩ : RtClass) ≠ ⟨i, file, counter + 1⟩
      ∧ chain₁.get? 0 = some caller := by
  have hi0 : i ≠ 0 := by
    intro h
    subst h
    rw [hhead] at hget
    cases hget
    rw [hcallerPath] at hread
    cases hread
  have hilen : i < chain.length := get?_some_lt _ i loader hget
  set c₁ : RtClass := ⟨i, file, counter⟩ with hc₁
  set loader₁ := cacheInsert loader name c₁ with hloader₁
  set chain₁ := chain.set i loader₁ with hchain₁
  have h1 : load_class chain counter name = .ok (c₁, chain₁, counter + 1) :=
    ((load_class_cases chain counter name caller hhead).2 hmiss).1
      i loader file hget hread habove
  have hhead₁ : chain₁.get? 0 = some caller := by
    rw [hchain₁, get?_set_ne chain i 0 loader₁ hi0, hhead]
  have hget₁ : chain₁.get? i = some loader₁ :=
    get?_set_self chain i loader₁ hilen
  have hread₁ : readClass loader₁ name = some file := hread
  have habove₁ : ∀ j, i < j → ∀ loader', chain₁.get? j = some loader' →
      readClass loader' name = none := by
    intro j hj loader' hl
    rw [hchain₁, get?_set_ne chain i j loader₁ (by omega)] at hl
    exact habove j hj loader' hl
  have h2 : load_class chain₁ (counter + 1) name
      = .ok (⟨i, file, counter + 1⟩,
             chain₁.set i (cacheInsert loader₁ name ⟨i, file, counter + 1⟩),
             counter + 2) :=
    ((load_class_cases chain₁ (counter + 1) name caller hhead₁).2 hmiss).1
      i loader₁ file hget₁ hread₁ habove₁
  refine ⟨chain₁, chain₁.set i (cacheInsert loader₁ name ⟨i, file, counter + 1⟩),
    h1, h2, ?_, hhead₁⟩
  intro hcontra
  have : counter = counter + 1 := by
    rw [hc₁] at hcontra
    exact congrArg RtClass.uid hcontra
  omega

/-- C10 witness: two successive child-loader calls for "HelloWorld"
return classes with distinct allocation identities. -/
theorem load_class_fresh_instance_witness :
    ∃ chain₁ chain₂,
      load_class [childLoaderW, bootLoaderW] 0 "HelloWorld"
        = .ok (⟨1, 7, 0⟩, chain₁, 1)
      ∧ load_class chain₁ 1 "HelloWorld" = .ok (⟨1, 7, 1⟩, chain₂, 2)
      ∧ (⟨1, 7, 0⟩ : RtClass) ≠ ⟨1, 7, 1⟩
      ∧ chain₁.get? 0 = some childLoaderW := by
  have habove : ∀ j, 1 < j → ∀ loader',
      ([childLoaderW, bootLoaderW] : List Loader).get? j = some loader' →
      readClass loader' "HelloWorld" = none := by
    intro j hj loader' hget
    rw [List.get?_eq_none.mpr (by simp; omega)] at hget
    cases hget
  exact load_class_fresh_instance_per_call [childLoaderW, bootLoaderW] 0 "HelloWorld"
    childLoaderW rfl (by decide) (by decide) 1 bootLoaderW 7 (by decide) (by decide)
    habove

/-- C5 witness: concrete acceptances and rejections. -/
theorem ldc_constant_acceptance_witness :
    load_constant ldcEnvW [Constant.integer 7] 1 = .ok (.int 7)
    ∧ ldc2_w [Constant.long 9] 1 = .ok (.long 9)
    ∧ load_constant ldcEnvW [Constant.methodType 3] 1
        = .error (.invalidConstant "integer|float|string|class" (Constant.methodType 3))
    ∧ ldc2_w [Constant.integer 7] 1
        = .error (.invalidConstant "long|double" (Constant.integer 7)) :=
  ⟨(ldc_constant_acceptance ldcEnvW [Constant.integer 7] 1).2.1 7 (by decide),
   (ldc_constant_acceptance ldcEnvW [Constant.long 9] 1).2.2.2.2.2.2.1 9 (by decide),
   (ldc_constant_acceptance ldcEnvW [Constant.methodType 3] 1).2.2.2.2.2.1
     (Constant.methodType 3) (by decide) (by decide),
   (ldc_constant_acceptance ldcEnvW [Constant.integer 7] 1).2.2.2.2.2.2.2.2
     (Constant.integer 7) (by decide) (by decide)⟩

end Ristretto
